import Mathlib

/-!
Verification of the design-pattern demonstration program
(`Design Patterns Examples.cpp`).

The program has three independent components:

* Factory Method: products `Truck`/`Ship` with `deliver`, creators
  `RoadLogistics`/`SeaLogistics` with `createTransport` and `planDelivery`.
* Abstract Factory: products `VictorianChair`/`ModernChair` with `type`,
  factories `VictorianFactory`/`ModernFactory` with `createChair`, and the
  client function `showFurniture`.
* Builder: a mutable `House` (an ordered vector of part-name strings,
  `addPart` is `push_back`), a `SimpleHouseBuilder` that owns a heap-allocated
  `House` through a pointer and replaces it with a fresh allocation on
  `getResult`, and a `Director` that sequences builder steps.

The stateless classes become pure functions (a `const` method with no
mutable state returns the same value on every call, and console output is
modelled as the emitted line).  The builder is stateful and its claims talk
about aliasing between the extracted `House` and the builder's internal
one, so the `new`-allocated houses live in an explicit heap: `Heap` carries
an allocation counter `next` and a `cells` map from addresses to part
lists, `Heap.alloc` models `new House()` (a fresh address holding the empty
part list), and the builder stores the address of its current house, as the
C++ object stores the pointer `house`.
-/

/-- Product variants of the `Transport` interface: classes `Truck` and
`Ship`. -/
inductive Transport
  | truck
  | ship
deriving DecidableEq

/-- Method `Truck::deliver` returns `"Delivery by Truck"`; `Ship::deliver` returns
`"Delivery by Ship"`. -/
def Transport.deliver : Transport → String
  | .truck => "Delivery by Truck"
  | .ship => "Delivery by Ship"

/-- Creator variants of the `Logistics` interface: classes `RoadLogistics`
and `SeaLogistics`. -/
inductive Logistics
  | road
  | sea
deriving DecidableEq

/-- The factory method: `RoadLogistics::createTransport` returns
`new Truck()`, `SeaLogistics::createTransport` returns `new Ship()`. -/
def Logistics.createTransport : Logistics → Transport
  | .road => .truck
  | .sea => .ship

/-- Method `Logistics::planDelivery` creates one transport via the factory method
and prints `"[Factory Method] "` followed by the product's `deliver`
string; the emitted line is the return value here. -/
def Logistics.planDelivery (l : Logistics) : String :=
  "[Factory Method] " ++ (l.createTransport).deliver

/-- Lines emitted by `n` successive `planDelivery()` calls on the same
creator. -/
def Logistics.planDeliveryCalls (l : Logistics) : Nat → List String
  | 0 => []
  | n + 1 => l.planDelivery :: l.planDeliveryCalls n

/-- Product variants of the `Chair` interface: classes `VictorianChair` and
`ModernChair`. -/
inductive Chair
  | victorian
  | modern
deriving DecidableEq

/-- Method `VictorianChair::type` returns `"Victorian Chair"`; `ModernChair::type`
returns `"Modern Chair"`. -/
def Chair.type : Chair → String
  | .victorian => "Victorian Chair"
  | .modern => "Modern Chair"

/-- Factory variants of the `FurnitureFactory` interface: classes
`VictorianFactory` and `ModernFactory`. -/
inductive FurnitureFactory
  | victorian
  | modern
deriving DecidableEq

/-- Method `VictorianFactory::createChair` returns `new VictorianChair()`;
`ModernFactory::createChair` returns `new ModernChair()`. -/
def FurnitureFactory.createChair : FurnitureFactory → Chair
  | .victorian => .victorian
  | .modern => .modern

/-- The chairs produced by `n` successive `createChair()` calls on the same
factory instance. -/
def FurnitureFactory.createChairCalls (f : FurnitureFactory) : Nat → List Chair
  | 0 => []
  | n + 1 => f.createChair :: f.createChairCalls n

/-- The client `showFurniture`: creates one chair from the given factory
and emits `"[Abstract Factory] Created: "` followed by its `type`. -/
def showFurniture (f : FurnitureFactory) : String :=
  "[Abstract Factory] Created: " ++ (f.createChair).type

/-- The heap on which `new House()` allocates: `next` is the next fresh
address, `cells` gives each address's `House` contents (its `parts`
vector, a list of part-name strings). -/
structure Heap where
  next : Nat
  cells : Nat → List String

/-- The heap before any allocation. -/
def Heap.empty : Heap :=
  { next := 0, cells := fun _ => [] }

/-- Allocation `new House()`: returns a fresh address whose cell holds the empty parts
vector (the `House` default constructor), and bumps the allocation
counter. -/
def Heap.alloc (h : Heap) : Nat × Heap :=
  (h.next,
    { next := h.next + 1
      cells := fun a => if a = h.next then [] else h.cells a })

/-- Method `House::addPart` on the house at address `a`: `parts.push_back(part)`
appends the part name at the end of that house's parts vector. -/
def Heap.addPart (h : Heap) (a : Nat) (part : String) : Heap :=
  { next := h.next
    cells := fun b => if b = a then h.cells a ++ [part] else h.cells b }

/-- Class `SimpleHouseBuilder`'s data: the pointer `house` to its current
in-progress `House`. -/
structure SimpleHouseBuilder where
  house : Nat

/-- The constructor `SimpleHouseBuilder()`: `house = new House()`. -/
def SimpleHouseBuilder.init (h : Heap) : SimpleHouseBuilder × Heap :=
  (⟨(h.alloc).1⟩, (h.alloc).2)

/-- Method `SimpleHouseBuilder::buildWalls`: `house->addPart("Walls")`. -/
def SimpleHouseBuilder.buildWalls (st : SimpleHouseBuilder × Heap) :
    SimpleHouseBuilder × Heap :=
  (st.1, st.2.addPart st.1.house "Walls")

/-- Method `SimpleHouseBuilder::buildDoors`: `house->addPart("Doors")`. -/
def SimpleHouseBuilder.buildDoors (st : SimpleHouseBuilder × Heap) :
    SimpleHouseBuilder × Heap :=
  (st.1, st.2.addPart st.1.house "Doors")

/-- Method `SimpleHouseBuilder::buildWindows`: `house->addPart("Windows")`. -/
def SimpleHouseBuilder.buildWindows (st : SimpleHouseBuilder × Heap) :
    SimpleHouseBuilder × Heap :=
  (st.1, st.2.addPart st.1.house "Windows")

/-- Method `SimpleHouseBuilder::getResult`: remembers the current house pointer as
`result`, sets `house = new House()`, and returns `result`. -/
def SimpleHouseBuilder.getResult (st : SimpleHouseBuilder × Heap) :
    Nat × (SimpleHouseBuilder × Heap) :=
  (st.1.house, (⟨(st.2.alloc).1⟩, (st.2.alloc).2))

/-- The three build-step methods of the `HouseBuilder` interface. -/
inductive Step
  | walls
  | doors
  | windows
deriving DecidableEq

/-- The part name each build step passes to `addPart`. -/
def Step.partName : Step → String
  | .walls => "Walls"
  | .doors => "Doors"
  | .windows => "Windows"

/-- Dispatch one build-step call on a `SimpleHouseBuilder`. -/
def runStep : Step → SimpleHouseBuilder × Heap → SimpleHouseBuilder × Heap
  | .walls => SimpleHouseBuilder.buildWalls
  | .doors => SimpleHouseBuilder.buildDoors
  | .windows => SimpleHouseBuilder.buildWindows

/-- A sequence of build-step calls, performed in list order. -/
def runSteps (steps : List Step) (st : SimpleHouseBuilder × Heap) :
    SimpleHouseBuilder × Heap :=
  steps.foldl (fun s step => runStep step s) st

/-- The `HouseBuilder` interface as the `Director` sees it through its
`builder` pointer: one operation per virtual method, over an abstract
builder-state type. -/
structure BuilderOps (σ : Type) where
  buildWalls : σ → σ
  buildDoors : σ → σ
  buildWindows : σ → σ
  getResult : σ → Nat × σ

/-- Class `SimpleHouseBuilder` as an implementation of the builder interface. -/
def simpleOps : BuilderOps (SimpleHouseBuilder × Heap) :=
  { buildWalls := SimpleHouseBuilder.buildWalls
    buildDoors := SimpleHouseBuilder.buildDoors
    buildWindows := SimpleHouseBuilder.buildWindows
    getResult := SimpleHouseBuilder.getResult }

/-- Method `Director::buildMinimalHouse`: `builder->buildWalls();
builder->buildDoors();` on whatever builder was set by `setBuilder`. -/
def Director.buildMinimalHouse {σ : Type} (ops : BuilderOps σ) (st : σ) : σ :=
  ops.buildDoors (ops.buildWalls st)

/-- Method `Director::buildFullHouse`: `builder->buildWalls();
builder->buildDoors(); builder->buildWindows();`. -/
def Director.buildFullHouse {σ : Type} (ops : BuilderOps σ) (st : σ) : σ :=
  ops.buildWindows (ops.buildDoors (ops.buildWalls st))

/-- The virtual methods of the builder interface, as call records. -/
inductive BuilderCall
  | buildWalls
  | buildDoors
  | buildWindows
  | getResult
deriving DecidableEq

/-- A builder implementation whose state is the list of interface calls
made on it so far; each method appends its own record. Running the
`Director` against it exposes exactly which builder methods a `Director`
operation invokes and in which order. -/
def traceOps : BuilderOps (List BuilderCall) :=
  { buildWalls := fun t => t ++ [.buildWalls]
    buildDoors := fun t => t ++ [.buildDoors]
    buildWindows := fun t => t ++ [.buildWindows]
    getResult := fun t => (0, t ++ [.getResult]) }

/-- The starting state of the builder demo: a freshly constructed
`SimpleHouseBuilder` on the empty heap. -/
def demoStart : SimpleHouseBuilder × Heap :=
  SimpleHouseBuilder.init Heap.empty

lemma runStep_fst (s : Step) (st : SimpleHouseBuilder × Heap) :
    (runStep s st).1 = st.1 := by
  cases s <;> rfl

lemma runStep_next (s : Step) (st : SimpleHouseBuilder × Heap) :
    (runStep s st).2.next = st.2.next := by
  cases s <;> rfl

lemma runStep_cells_house (s : Step) (st : SimpleHouseBuilder × Heap) :
    (runStep s st).2.cells st.1.house
      = st.2.cells st.1.house ++ [s.partName] := by
  cases s <;>
    simp [runStep, SimpleHouseBuilder.buildWalls, SimpleHouseBuilder.buildDoors,
      SimpleHouseBuilder.buildWindows, Heap.addPart, Step.partName]

lemma runStep_cells_ne (s : Step) (st : SimpleHouseBuilder × Heap) (a : Nat)
    (ha : a ≠ st.1.house) :
    (runStep s st).2.cells a = st.2.cells a := by
  cases s <;>
    simp [runStep, SimpleHouseBuilder.buildWalls, SimpleHouseBuilder.buildDoors,
      SimpleHouseBuilder.buildWindows, Heap.addPart, ha]

lemma runSteps_nil (st : SimpleHouseBuilder × Heap) : runSteps [] st = st :=
  rfl

lemma runSteps_cons (s : Step) (steps : List Step)
    (st : SimpleHouseBuilder × Heap) :
    runSteps (s :: steps) st = runSteps steps (runStep s st) :=
  rfl

lemma runSteps_fst (steps : List Step) (st : SimpleHouseBuilder × Heap) :
    (runSteps steps st).1 = st.1 := by
  induction steps generalizing st with
  | nil => rfl
  | cons s rest ih =>
      rw [runSteps_cons, ih, runStep_fst]

lemma runSteps_next (steps : List Step) (st : SimpleHouseBuilder × Heap) :
    (runSteps steps st).2.next = st.2.next := by
  induction steps generalizing st with
  | nil => rfl
  | cons s rest ih =>
      rw [runSteps_cons, ih, runStep_next]

lemma runSteps_cells_house (steps : List Step) (st : SimpleHouseBuilder × Heap) :
    (runSteps steps st).2.cells st.1.house
      = st.2.cells st.1.house ++ steps.map Step.partName := by
  induction steps generalizing st with
  | nil => simp [runSteps_nil]
  | cons s rest ih =>
      have hfst : (runStep s st).1.house = st.1.house := by
        rw [runStep_fst]
      rw [runSteps_cons]
      have := ih (runStep s st)
      rw [hfst] at this
      rw [this, runStep_cells_house]
      simp [List.map_cons]

lemma runSteps_cells_ne (steps : List Step) (st : SimpleHouseBuilder × Heap)
    (a : Nat) (ha : a ≠ st.1.house) :
    (runSteps steps st).2.cells a = st.2.cells a := by
  induction steps generalizing st with
  | nil => rfl
  | cons s rest ih =>
      have hfst : (runStep s st).1.house = st.1.house := by
        rw [runStep_fst]
      rw [runSteps_cons, ih (runStep s st) (by rw [hfst]; exact ha),
        runStep_cells_ne s st a ha]

lemma getResult_fst (st : SimpleHouseBuilder × Heap) :
    (SimpleHouseBuilder.getResult st).1 = st.1.house :=
  rfl

lemma getResult_house (st : SimpleHouseBuilder × Heap) :
    (SimpleHouseBuilder.getResult st).2.1.house = st.2.next :=
  rfl

lemma getResult_cells (st : SimpleHouseBuilder × Heap) (a : Nat) :
    (SimpleHouseBuilder.getResult st).2.2.cells a
      = if a = st.2.next then [] else st.2.cells a :=
  rfl

/-- Core builder lemma: from a state whose current house is empty, a run of
build steps followed by `getResult` extracts a house whose parts are
exactly the steps' part names in call order. -/
lemma getResult_runSteps_parts (steps : List Step)
    (st : SimpleHouseBuilder × Heap)
    (hvalid : st.1.house < st.2.next)
    (hempty : st.2.cells st.1.house = []) :
    (SimpleHouseBuilder.getResult (runSteps steps st)).2.2.cells
        (SimpleHouseBuilder.getResult (runSteps steps st)).1
      = steps.map Step.partName := by
  rw [getResult_fst, getResult_cells, runSteps_fst, runSteps_next]
  rw [if_neg (ne_of_lt hvalid)]
  rw [runSteps_cells_house, hempty, List.nil_append]

lemma director_minimal_eq_runSteps (st : SimpleHouseBuilder × Heap) :
    Director.buildMinimalHouse simpleOps st = runSteps [Step.walls, Step.doors] st :=
  rfl

lemma director_full_eq_runSteps (st : SimpleHouseBuilder × Heap) :
    Director.buildFullHouse simpleOps st
      = runSteps [Step.walls, Step.doors, Step.windows] st :=
  rfl

lemma double_walls_eq_runSteps (st : SimpleHouseBuilder × Heap) :
    SimpleHouseBuilder.buildWalls (SimpleHouseBuilder.buildWalls st)
      = runSteps [Step.walls, Step.walls] st :=
  rfl

/-- C1: for every sequence of builder-step calls performed on a
`SimpleHouseBuilder` since its construction or since the previous
`getResult` call (both leave the current house empty), the `House` returned
by the next `getResult` has a parts sequence that is exactly the
corresponding part names in call order; moreover each single step appends
exactly one part to the current house, so no operation removes or reorders
parts. -/
theorem builder_step_sequence (steps : List Step)
    (st : SimpleHouseBuilder × Heap)
    (hvalid : st.1.house < st.2.next)
    (hempty : st.2.cells st.1.house = []) :
    (SimpleHouseBuilder.getResult (runSteps steps st)).2.2.cells
        (SimpleHouseBuilder.getResult (runSteps steps st)).1
      = steps.map Step.partName ∧
    ∀ (s : Step) (σ : SimpleHouseBuilder × Heap),
      (runStep s σ).2.cells σ.1.house
        = σ.2.cells σ.1.house ++ [s.partName] :=
  ⟨getResult_runSteps_parts steps st hvalid hempty, runStep_cells_house⟩

/-- Witness for C1 at the fresh demo builder and the step sequence
doors, walls, doors. -/
theorem builder_step_sequence_witness :
    (demoStart.1.house < demoStart.2.next ∧
      demoStart.2.cells demoStart.1.house = []) ∧
    ((SimpleHouseBuilder.getResult
          (runSteps [Step.doors, Step.walls, Step.doors] demoStart)).2.2.cells
        (SimpleHouseBuilder.getResult
          (runSteps [Step.doors, Step.walls, Step.doors] demoStart)).1
      = [Step.doors, Step.walls, Step.doors].map Step.partName ∧
    ∀ (s : Step) (σ : SimpleHouseBuilder × Heap),
      (runStep s σ).2.cells σ.1.house
        = σ.2.cells σ.1.house ++ [s.partName]) :=
  ⟨⟨by decide, by decide⟩,
    builder_step_sequence [Step.doors, Step.walls, Step.doors] demoStart
      (by decide) (by decide)⟩

/-- C2: `planDelivery()` on each creator variant emits its product's
description with the fixed `"[Factory Method] "` tag in front; the binding
is fixed (Road yields "Delivery by Truck", Sea yields "Delivery by Ship")
and does not change across any number of repeated calls. -/
theorem planDelivery_fixed_binding :
    (∀ n : Nat, Logistics.planDeliveryCalls .road n
        = List.replicate n "[Factory Method] Delivery by Truck") ∧
    (∀ n : Nat, Logistics.planDeliveryCalls .sea n
        = List.replicate n "[Factory Method] Delivery by Ship") ∧
    ∀ l : Logistics,
      l.planDelivery = "[Factory Method] " ++ (l.createTransport).deliver := by
  refine ⟨fun n => ?_, fun n => ?_, fun l => rfl⟩ <;>
    · induction n with
      | zero => rfl
      | succ n ih =>
          simp [Logistics.planDeliveryCalls, List.replicate_succ, ih]
          rfl

/-- C3: every chair obtained from any number of repeated `createChair()`
calls on the same factory instance has the same `type` description as the
factory's single fixed product, and that description matches the factory's
declared family (Victorian yields "Victorian Chair", Modern yields
"Modern Chair"). -/
theorem createChair_family_consistency (f : FurnitureFactory) (n : Nat)
    (c : Chair) (hc : c ∈ f.createChairCalls n) :
    c.type = (f.createChair).type ∧
    (f = .victorian → c.type = "Victorian Chair") ∧
    (f = .modern → c.type = "Modern Chair") := by
  induction n with
  | zero => cases hc
  | succ n ih =>
      rcases List.mem_cons.mp hc with h | h
      · subst h
        cases f <;> simp [Chair.type, FurnitureFactory.createChair]
      · exact ih h

/-- Witness for C3: the second of two chairs created by the Modern
factory. -/
theorem createChair_family_consistency_witness :
    Chair.modern ∈ FurnitureFactory.modern.createChairCalls 2 ∧
    (Chair.modern.type = (FurnitureFactory.modern.createChair).type ∧
      (FurnitureFactory.modern = .victorian →
        Chair.modern.type = "Victorian Chair") ∧
      (FurnitureFactory.modern = .modern →
        Chair.modern.type = "Modern Chair")) :=
  ⟨by decide,
    createChair_family_consistency .modern 2 .modern (by decide)⟩

/-- C4: immediately after any `getResult()` call on a valid builder state,
the builder owns a new house at a different address from the returned one,
that new house is empty, and no subsequent sequence of build steps ever
changes the contents of the already-returned house (they stay exactly what
they were at extraction). -/
theorem builder_reset_no_aliasing (st : SimpleHouseBuilder × Heap)
    (hvalid : st.1.house < st.2.next) :
    (SimpleHouseBuilder.getResult st).2.1.house
        ≠ (SimpleHouseBuilder.getResult st).1 ∧
    (SimpleHouseBuilder.getResult st).2.2.cells
        (SimpleHouseBuilder.getResult st).2.1.house = [] ∧
    ∀ steps : List Step,
      (runSteps steps (SimpleHouseBuilder.getResult st).2).2.cells
          (SimpleHouseBuilder.getResult st).1
        = st.2.cells st.1.house := by
  refine ⟨?_, ?_, fun steps => ?_⟩
  · rw [getResult_house, getResult_fst]
    exact ne_of_gt hvalid
  · rw [getResult_house, getResult_cells, if_pos rfl]
  · rw [getResult_fst]
    rw [runSteps_cells_ne steps (SimpleHouseBuilder.getResult st).2 st.1.house
      (by rw [getResult_house]; exact ne_of_lt hvalid)]
    rw [getResult_cells, if_neg (ne_of_lt hvalid)]

/-- Witness for C4 at the fresh demo builder. -/
theorem builder_reset_no_aliasing_witness :
    demoStart.1.house < demoStart.2.next ∧
    ((SimpleHouseBuilder.getResult demoStart).2.1.house
        ≠ (SimpleHouseBuilder.getResult demoStart).1 ∧
    (SimpleHouseBuilder.getResult demoStart).2.2.cells
        (SimpleHouseBuilder.getResult demoStart).2.1.house = [] ∧
    ∀ steps : List Step,
      (runSteps steps (SimpleHouseBuilder.getResult demoStart).2).2.cells
          (SimpleHouseBuilder.getResult demoStart).1
        = demoStart.2.cells demoStart.1.house) :=
  ⟨by decide, builder_reset_no_aliasing demoStart (by decide)⟩

/-- C5: from a builder in the empty state, `buildMinimalHouse()` on a
`Director` attached to that builder followed by `getResult()` yields a
`House` whose parts sequence is exactly `["Walls", "Doors"]`. -/
theorem director_minimal_then_getResult (st : SimpleHouseBuilder × Heap)
    (hvalid : st.1.house < st.2.next)
    (hempty : st.2.cells st.1.house = []) :
    (SimpleHouseBuilder.getResult (Director.buildMinimalHouse simpleOps st)).2.2.cells
        (SimpleHouseBuilder.getResult (Director.buildMinimalHouse simpleOps st)).1
      = ["Walls", "Doors"] := by
  rw [director_minimal_eq_runSteps]
  exact getResult_runSteps_parts [Step.walls, Step.doors] st hvalid hempty

/-- Witness for C5 at the fresh demo builder. -/
theorem director_minimal_then_getResult_witness :
    (demoStart.1.house < demoStart.2.next ∧
      demoStart.2.cells demoStart.1.house = []) ∧
    (SimpleHouseBuilder.getResult
        (Director.buildMinimalHouse simpleOps demoStart)).2.2.cells
      (SimpleHouseBuilder.getResult
        (Director.buildMinimalHouse simpleOps demoStart)).1
      = ["Walls", "Doors"] :=
  ⟨⟨by decide, by decide⟩,
    director_minimal_then_getResult demoStart (by decide) (by decide)⟩

/-- C6: immediately after scenario A's extraction, on the same builder,
`buildFullHouse()` followed by `getResult()` yields a `House` whose parts
are exactly `["Walls", "Doors", "Windows"]`, at a different address from
scenario A's `House`, whose contents are unchanged. -/
theorem scenario_b_full_house_distinct :
    (let stA := Director.buildMinimalHouse simpleOps demoStart
     let r1 := (SimpleHouseBuilder.getResult stA).1
     let st1 := (SimpleHouseBuilder.getResult stA).2
     let stB := Director.buildFullHouse simpleOps st1
     let r2 := (SimpleHouseBuilder.getResult stB).1
     let st2 := (SimpleHouseBuilder.getResult stB).2
     st2.2.cells r2 = ["Walls", "Doors", "Windows"] ∧
       r2 ≠ r1 ∧ st2.2.cells r1 = ["Walls", "Doors"]) := by
  decide

/-- C7: calling `buildWalls()` twice before one `getResult()` yields a
`House` whose part sequence contains "Walls" twice, in call order;
duplicate build steps are not suppressed. -/
theorem duplicate_walls_not_suppressed (st : SimpleHouseBuilder × Heap)
    (hvalid : st.1.house < st.2.next)
    (hempty : st.2.cells st.1.house = []) :
    (SimpleHouseBuilder.getResult
        (SimpleHouseBuilder.buildWalls (SimpleHouseBuilder.buildWalls st))).2.2.cells
      (SimpleHouseBuilder.getResult
        (SimpleHouseBuilder.buildWalls (SimpleHouseBuilder.buildWalls st))).1
      = ["Walls", "Walls"] := by
  rw [double_walls_eq_runSteps]
  exact getResult_runSteps_parts [Step.walls, Step.walls] st hvalid hempty

/-- Witness for C7 at the fresh demo builder. -/
theorem duplicate_walls_not_suppressed_witness :
    (demoStart.1.house < demoStart.2.next ∧
      demoStart.2.cells demoStart.1.house = []) ∧
    (SimpleHouseBuilder.getResult
        (SimpleHouseBuilder.buildWalls (SimpleHouseBuilder.buildWalls demoStart))).2.2.cells
      (SimpleHouseBuilder.getResult
        (SimpleHouseBuilder.buildWalls (SimpleHouseBuilder.buildWalls demoStart))).1
      = ["Walls", "Walls"] :=
  ⟨⟨by decide, by decide⟩,
    duplicate_walls_not_suppressed demoStart (by decide) (by decide)⟩

/-- C8: a `Director` run against a call-recording builder shows that
`buildMinimalHouse` invokes exactly buildWalls then buildDoors, and
`buildFullHouse` exactly buildWalls, buildDoors, buildWindows, in those
fixed orders with no other interface call (in particular no `getResult`);
consequently on the concrete builder neither Director operation replaces
the builder's internal house pointer. -/
theorem director_call_order (t : List BuilderCall) :
    Director.buildMinimalHouse traceOps t
        = t ++ [BuilderCall.buildWalls, BuilderCall.buildDoors] ∧
    Director.buildFullHouse traceOps t
        = t ++ [BuilderCall.buildWalls, BuilderCall.buildDoors,
            BuilderCall.buildWindows] ∧
    ∀ st : SimpleHouseBuilder × Heap,
      (Director.buildMinimalHouse simpleOps st).1 = st.1 ∧
      (Director.buildFullHouse simpleOps st).1 = st.1 := by
  refine ⟨?_, ?_, fun st => ⟨rfl, rfl⟩⟩ <;>
    simp [Director.buildMinimalHouse, Director.buildFullHouse, traceOps]

/-- C9: `getResult()` on a freshly constructed `SimpleHouseBuilder`, with
no build steps performed, returns a `House` whose parts sequence is
empty. -/
theorem getResult_fresh_builder_empty :
    (SimpleHouseBuilder.getResult (SimpleHouseBuilder.init Heap.empty)).2.2.cells
        (SimpleHouseBuilder.getResult (SimpleHouseBuilder.init Heap.empty)).1
      = [] := by
  decide

/-- C10: for every builder implementation and every builder state,
`buildFullHouse()` on a `Director` has exactly the same effect as
`buildMinimalHouse()` followed by a single `buildWindows()` call. -/
theorem full_house_refines_minimal {σ : Type} (ops : BuilderOps σ) (st : σ) :
    Director.buildFullHouse ops st
      = ops.buildWindows (Director.buildMinimalHouse ops st) :=
  rfl
